import Mathlib

/-!
Shallow embedding of the two vouch strategy files under verification:

* `strategies/beaconblockproposal/best` (given as `src/unnamed/part_000`):
  the proposal scorer `scoreBeaconBlockProposal` and the best-proposal
  selector `BeaconBlockProposal`.
* `services/beaconcommitteesubscriber/standard/service.go`:
  the subscription calculation `calculateSubscriptionInfo`.

Machine integers (`uint64`) are modelled as `Nat` with explicit `% 2^64`
where Go wraparound matters.  Go `float64` score arithmetic is idealised
as exact rational arithmetic (`ℚ`); the one place where the two differ —
division by a zero inclusion distance — is tracked separately by an
explicit predicate rather than hidden behind `ℚ`'s `x / 0 = 0` convention.
Fallible collaborator calls are modelled as `Option`-returning functions.
Lock and semaphore usage along the workers' exit paths is modelled as the
list of lock/semaphore operations the path performs, so that permit and
lock balance can be stated.
-/

namespace Vouch

/-- One attestation inside a block proposal: the code reads
`attestation.Data.Slot` and `attestation.AggregationBits.Count()`. -/
structure Attestation where
  slot : Nat
  aggregationBitsCount : Nat
deriving DecidableEq, Repr

/-- The part of `spec.BeaconBlockBody` read by the scorer: the attestation
list and the two slashing lists (only their lengths are read, so the
elements are modelled as `Unit`). -/
structure BeaconBlockBody where
  attestations : List Attestation
  proposerSlashings : List Unit
  attesterSlashings : List Unit
deriving DecidableEq, Repr

/-- The part of `spec.BeaconBlock` read by the scorer. -/
structure BeaconBlock where
  body : BeaconBlockBody
deriving DecidableEq, Repr

/-- `slot - attestation.Data.Slot` on Go `uint64` values: subtraction
wraps modulo `2^64` (both operands are below `2^64`). -/
def inclusionDistance (slot attestationSlot : Nat) : Nat :=
  (slot + 2 ^ 64 - attestationSlot) % 2 ^ 64

/-- `slashingWeight := float64(700)` from the source. -/
def slashingWeight : ℚ := 700

/-- The attestation loop of `scoreBeaconBlockProposal` (source lines
115-122): accumulates `(attestationScore, immediateAttestationScore)`
over the proposal's attestations, each attestation contributing
`AggregationBits.Count() / inclusionDistance`. -/
def attestationScores (slot : Nat) (attestations : List Attestation) : ℚ × ℚ :=
  attestations.foldl
    (fun acc attestation =>
      let inclusionDist : ℚ := (inclusionDistance slot attestation.slot : ℚ)
      (acc.1 + (attestation.aggregationBitsCount : ℚ) / inclusionDist,
       if inclusionDist = 1 then
         acc.2 + (attestation.aggregationBitsCount : ℚ) / inclusionDist
       else acc.2))
    (0, 0)

/-- `scoreBeaconBlockProposal` transcribed from the source (lines 111-148).
Note the return line of the source is
`attestationScore + proposerSlashingScore + attestationScore`:
the attestation score is added twice and the attester-slashing score,
although computed (and logged as part of the total), is not part of the
returned sum.  The transcription reproduces this verbatim. -/
def scoreBeaconBlockProposal (slot : Nat) (blockProposal : BeaconBlock) : ℚ :=
  let attestationScore := (attestationScores slot blockProposal.body.attestations).1
  let proposerSlashingScore := (blockProposal.body.proposerSlashings.length : ℚ) * slashingWeight
  let attesterSlashingScore := (blockProposal.body.attesterSlashings.length : ℚ) * slashingWeight
  attestationScore + proposerSlashingScore + attestationScore

/-- The total score as the spec words it: "Total score = attestation score +
proposer-slashing score + attester-slashing score" (each score component
computed exactly as in the source, lines 112-135; this definition exists
only to be compared with the source's return line). -/
def specTotalScore (slot : Nat) (blockProposal : BeaconBlock) : ℚ :=
  let attestationScore := (attestationScores slot blockProposal.body.attestations).1
  let proposerSlashingScore := (blockProposal.body.proposerSlashings.length : ℚ) * slashingWeight
  let attesterSlashingScore := (blockProposal.body.attesterSlashings.length : ℚ) * slashingWeight
  attestationScore + proposerSlashingScore + attesterSlashingScore

/-- The source divides by `inclusionDistance` unconditionally (line 118);
this flags the inputs on which that division has a zero denominator (in Go
`float64` arithmetic such a division yields `+Inf` or `NaN` instead of
being rejected or contributing zero). -/
def scoreDivisionByZero (slot : Nat) (blockProposal : BeaconBlock) : Bool :=
  blockProposal.body.attestations.any
    (fun attestation => inclusionDistance slot attestation.slot == 0)

/-- C9: for every slot, scoring a proposal with zero attestations, zero
proposer slashings and zero attester slashings returns exactly 0 (and the
embedding is a pure function of the proposal, which it does not mutate). -/
theorem score_empty_proposal_eq_zero (slot : Nat) :
    scoreBeaconBlockProposal slot ⟨⟨[], [], []⟩⟩ = 0 := by
  simp [scoreBeaconBlockProposal, attestationScores]

/-- C1: the claim that the returned score equals attestation score +
proposer-slashing score + attester-slashing score fails on the code: the
source's return line adds the attestation score twice and omits the
attester-slashing term, so a block with one attester slashing and nothing
else scores 0 where the claimed total is 700. -/
theorem score_total_omits_attester_slashings :
    scoreBeaconBlockProposal 2 ⟨⟨[], [], [()]⟩⟩ = 0 ∧
    specTotalScore 2 ⟨⟨[], [], [()]⟩⟩ = 700 ∧
    scoreBeaconBlockProposal 2 ⟨⟨[], [], [()]⟩⟩ ≠
      specTotalScore 2 ⟨⟨[], [], [()]⟩⟩ := by
  refine ⟨?_, ?_, ?_⟩ <;>
    simp [scoreBeaconBlockProposal, specTotalScore, attestationScores, slashingWeight]

/-- C4: the claim that the scorer never divides by a zero inclusion
distance fails on the code: at slot 5, an attestation whose own slot is 5
has inclusion distance 0, and the scorer divides by it unconditionally
(no rejection, no zero-contribution special case). -/
theorem score_divides_by_zero_distance :
    inclusionDistance 5 5 = 0 ∧
    scoreDivisionByZero 5 ⟨⟨[⟨5, 1⟩], [], []⟩⟩ = true := by
  constructor
  · simp [inclusionDistance]
  · decide

/-! ## Best-proposal selector (`BeaconBlockProposal`, source lines 65-107)

Each fan-out unit either fails (provider error / timeout / failed
semaphore acquire), contributing nothing, or succeeds with a proposal.
The mutex serialises the compare-and-swap updates, so the shared state
evolves by a sequential fold over the provider results in the order in
which they are recorded. -/

/-- The running best: `bestScore` and `bestProposal` (source lines 66-68,
initialised to `0` and `nil`). -/
structure BestState where
  bestScore : ℚ
  bestProposal : Option BeaconBlock
deriving DecidableEq, Repr

/-- One mutex-guarded update (source lines 95-101): a failed unit leaves
the state unchanged; a successful unit scores its proposal and replaces
the running best when `score > bestScore || bestProposal == nil`. -/
def updateBest (slot : Nat) (st : BestState) (result : Option BeaconBlock) : BestState :=
  match result with
  | none => st
  | some proposal =>
    let score := scoreBeaconBlockProposal slot proposal
    if st.bestScore < score ∨ st.bestProposal = none then
      { bestScore := score, bestProposal := some proposal }
    else st

/-- `Service.BeaconBlockProposal`: folds the per-provider results (in
recording order) through the compare-and-swap and returns
`(bestProposal, nil)` — the error component is always `none`
(source line 106). -/
def BeaconBlockProposal (slot : Nat) (results : List (Option BeaconBlock)) :
    Option BeaconBlock × Option String :=
  ((results.foldl (updateBest slot) { bestScore := 0, bestProposal := none }).bestProposal,
   none)

/-- The first-strict-max recursion the fold implements once a first
success is in hand: a later proposal displaces the current best exactly
when its score is strictly greater. -/
def pickBest (slot : Nat) (cur : BeaconBlock) : List BeaconBlock → BeaconBlock
  | [] => cur
  | p :: ps =>
    if scoreBeaconBlockProposal slot cur < scoreBeaconBlockProposal slot p then
      pickBest slot p ps
    else
      pickBest slot cur ps

lemma updateBest_none (slot : Nat) (st : BestState) : updateBest slot st none = st := rfl

lemma updateBest_some_of_best (slot : Nat) (cur : BeaconBlock) (p : BeaconBlock) :
    updateBest slot ⟨scoreBeaconBlockProposal slot cur, some cur⟩ (some p) =
      if scoreBeaconBlockProposal slot cur < scoreBeaconBlockProposal slot p then
        ⟨scoreBeaconBlockProposal slot p, some p⟩
      else ⟨scoreBeaconBlockProposal slot cur, some cur⟩ := by
  by_cases h : scoreBeaconBlockProposal slot cur < scoreBeaconBlockProposal slot p <;>
    simp [updateBest, h]

/-- The fold over the results list equals the fold over just the
successes (`filterMap id`). -/
lemma foldl_updateBest_filterMap (slot : Nat) (results : List (Option BeaconBlock))
    (st : BestState) :
    results.foldl (updateBest slot) st =
      (results.filterMap id).foldl (fun s p => updateBest slot s (some p)) st := by
  induction results generalizing st with
  | nil => rfl
  | cons r rs ih =>
    cases r with
    | none => simpa [updateBest_none] using ih st
    | some p => simp [List.filterMap_cons, ih]

/-- Once the state holds a proposal together with its own score, the fold
computes `pickBest`. -/
lemma foldl_updateBest_eq_pickBest (slot : Nat) (ps : List BeaconBlock) (cur : BeaconBlock) :
    ps.foldl (fun s p => updateBest slot s (some p))
        ⟨scoreBeaconBlockProposal slot cur, some cur⟩ =
      ⟨scoreBeaconBlockProposal slot (pickBest slot cur ps), some (pickBest slot cur ps)⟩ := by
  induction ps generalizing cur with
  | nil => rfl
  | cons p ps ih =>
    rw [List.foldl_cons, updateBest_some_of_best]
    by_cases h : scoreBeaconBlockProposal slot cur < scoreBeaconBlockProposal slot p
    · simp [h, pickBest, ih]
    · simp [h, pickBest, ih]

/-- The element `pickBest` returns scores at least as high as the seed. -/
lemma le_score_pickBest (slot : Nat) (cur : BeaconBlock) (ps : List BeaconBlock) :
    scoreBeaconBlockProposal slot cur ≤ scoreBeaconBlockProposal slot (pickBest slot cur ps) := by
  induction ps generalizing cur with
  | nil => simp [pickBest]
  | cons p ps ih =>
    by_cases h : scoreBeaconBlockProposal slot cur < scoreBeaconBlockProposal slot p
    · calc scoreBeaconBlockProposal slot cur
          ≤ scoreBeaconBlockProposal slot p := le_of_lt h
        _ ≤ scoreBeaconBlockProposal slot (pickBest slot p ps) := ih p
        _ = scoreBeaconBlockProposal slot (pickBest slot cur (p :: ps)) := by
            simp [pickBest, h]
    · simpa [pickBest, h] using ih cur

/-- `pickBest cur ps` splits `cur :: ps` into strictly-smaller-scored
elements before it and no-greater-scored elements after it: it is the
first element attaining the maximum score. -/
lemma pickBest_split (slot : Nat) (ps : List BeaconBlock) (cur : BeaconBlock) :
    ∃ pre post,
      cur :: ps = pre ++ pickBest slot cur ps :: post ∧
      (∀ q ∈ pre, scoreBeaconBlockProposal slot q < scoreBeaconBlockProposal slot (pickBest slot cur ps)) ∧
      (∀ q ∈ post, scoreBeaconBlockProposal slot q ≤ scoreBeaconBlockProposal slot (pickBest slot cur ps)) := by
  induction ps generalizing cur with
  | nil => exact ⟨[], [], by simp [pickBest]⟩
  | cons p ps ih =>
    by_cases h : scoreBeaconBlockProposal slot cur < scoreBeaconBlockProposal slot p
    · obtain ⟨pre, post, hsplit, hpre, hpost⟩ := ih p
      refine ⟨cur :: pre, post, ?_, ?_, ?_⟩
      · simp [pickBest, h, hsplit]
      · intro q hq
        rcases List.mem_cons.mp hq with rfl | hq
        · calc scoreBeaconBlockProposal slot q
              < scoreBeaconBlockProposal slot p := h
            _ ≤ scoreBeaconBlockProposal slot (pickBest slot p ps) := le_score_pickBest slot p ps
            _ = scoreBeaconBlockProposal slot (pickBest slot q (p :: ps)) := by
                simp [pickBest, h]
        · simpa [pickBest, h] using hpre q hq
      · intro q hq
        simpa [pickBest, h] using hpost q hq
    · obtain ⟨pre, post, hsplit, hpre, hpost⟩ := ih cur
      have hpick : pickBest slot cur (p :: ps) = pickBest slot cur ps := by
        simp [pickBest, h]
      cases pre with
      | nil =>
        simp only [List.nil_append, List.cons.injEq] at hsplit
        obtain ⟨hcur, hps⟩ := hsplit
        refine ⟨[], p :: post, ?_, by simp, ?_⟩
        · rw [hpick, ← hcur, hps]
          rfl
        · intro q hq
          rw [hpick, ← hcur]
          rcases List.mem_cons.mp hq with rfl | hq
          · exact le_of_not_lt h
          · have hq' := hpost q hq
            rwa [← hcur] at hq'
      | cons c pre' =>
        simp only [List.cons_append, List.cons.injEq] at hsplit
        obtain ⟨hc, hps⟩ := hsplit
        have hcurlt : scoreBeaconBlockProposal slot cur <
            scoreBeaconBlockProposal slot (pickBest slot cur ps) :=
          hpre cur (by rw [hc]; exact List.mem_cons_self c pre')
        refine ⟨cur :: p :: pre', post, ?_, ?_, ?_⟩
        · rw [hpick]
          conv_lhs => rw [hps]
          simp
        · intro q hq
          rw [hpick]
          rcases List.mem_cons.mp hq with rfl | hq
          · exact hcurlt
          rcases List.mem_cons.mp hq with rfl | hq
          · exact lt_of_le_of_lt (le_of_not_lt h) hcurlt
          · exact hpre q (List.mem_cons_of_mem c hq)
        · intro q hq
          rw [hpick]
          exact hpost q hq

/-- C5: whenever at least one provider succeeds, the selector returns a
successful proposal that strictly out-scores every success recorded
before it and is not out-scored by any success recorded after it — the
first success always becomes the running best, later successes replace
it only on strictly greater score, and ties keep the first-recorded
proposal. -/
theorem bestProposal_first_strict_max (slot : Nat) (results : List (Option BeaconBlock))
    (h : results.filterMap id ≠ []) :
    ∃ pre p post,
      results.filterMap id = pre ++ p :: post ∧
      (BeaconBlockProposal slot results).1 = some p ∧
      (∀ q ∈ pre, scoreBeaconBlockProposal slot q < scoreBeaconBlockProposal slot p) ∧
      (∀ q ∈ post, scoreBeaconBlockProposal slot q ≤ scoreBeaconBlockProposal slot p) := by
  obtain ⟨s, ss, hss⟩ := List.exists_cons_of_ne_nil h
  obtain ⟨pre, post, hsplit, hpre, hpost⟩ := pickBest_split slot ss s
  refine ⟨pre, pickBest slot s ss, post, by rw [hss, hsplit], ?_, hpre, hpost⟩
  unfold BeaconBlockProposal
  rw [foldl_updateBest_filterMap, hss, List.foldl_cons]
  have hfirst : updateBest slot { bestScore := 0, bestProposal := none } (some s) =
      ⟨scoreBeaconBlockProposal slot s, some s⟩ := by
    simp [updateBest]
  rw [hfirst, foldl_updateBest_eq_pickBest]

/-- Witness for C5 at a concrete input: two successes with equal score
(empty bodies) around a failure; the first-recorded success wins. -/
theorem bestProposal_first_strict_max_witness :
    ([none, some (⟨⟨[], [], []⟩⟩ : BeaconBlock), some ⟨⟨[], [], []⟩⟩].filterMap id ≠ []) ∧
    (∃ pre p post,
      ([none, some (⟨⟨[], [], []⟩⟩ : BeaconBlock), some ⟨⟨[], [], []⟩⟩].filterMap id) = pre ++ p :: post ∧
      (BeaconBlockProposal 9 [none, some ⟨⟨[], [], []⟩⟩, some ⟨⟨[], [], []⟩⟩]).1 = some p ∧
      (∀ q ∈ pre, scoreBeaconBlockProposal 9 q < scoreBeaconBlockProposal 9 p) ∧
      (∀ q ∈ post, scoreBeaconBlockProposal 9 q ≤ scoreBeaconBlockProposal 9 p)) :=
  ⟨by decide, bestProposal_first_strict_max 9 _ (by decide)⟩

/-- C6: when every provider fails, the selector returns an absent
proposal together with a `nil` error. -/
theorem bestProposal_all_failed (slot : Nat) (results : List (Option BeaconBlock))
    (h : ∀ r ∈ results, r = none) :
    BeaconBlockProposal slot results = (none, none) := by
  unfold BeaconBlockProposal
  rw [foldl_updateBest_filterMap]
  have hempty : results.filterMap id = [] := by
    rw [List.filterMap_eq_nil_iff]
    intro r hr
    simp [h r hr]
  rw [hempty]
  rfl

/-- Witness for C6 at a concrete input: three failed providers. -/
theorem bestProposal_all_failed_witness :
    BeaconBlockProposal 4 [none, none, none] = (none, none) :=
  bestProposal_all_failed 4 [none, none, none] (by decide)

/-! ## Semaphore discipline of the fan-out unit (C2)

The body of the goroutine spawned per provider (source lines 74-102)
performs exactly one semaphore operation: `sem.Acquire(ctx, 1)` at line
77.  No path of the body contains a `Release`.  The trace below lists
the semaphore operations the body performs on each exit path, indexed by
whether the acquire succeeded and whether the provider call succeeded. -/

/-- A semaphore operation on the weighted semaphore. -/
inductive SemOp where
  | acquire
  | release
deriving DecidableEq, Repr

/-- Semaphore operations performed by one fan-out unit of
`BeaconBlockProposal`, per exit path: a failed acquire holds nothing and
returns; after a successful acquire the body runs to one of its returns
(provider error at line 90 or normal completion at line 102) without any
release operation. -/
def proposalWorkerSemTrace (acquireOk providerOk : Bool) : List SemOp :=
  if acquireOk then
    [SemOp.acquire] ++ (if providerOk then [] else [])
  else []

/-- Permits held at exit: acquires minus releases along the trace. -/
def semBalance (trace : List SemOp) : Int :=
  (trace.count SemOp.acquire : Int) - (trace.count SemOp.release : Int)

/-- C2: the claim that every unit releases its permit when the provider
call returns fails on the code: on both the success and the failure exit
path the unit still holds one permit (the body has no release), so the
permit count is not balanced across the call. -/
theorem proposalWorker_leaks_permit :
    semBalance (proposalWorkerSemTrace true true) = 1 ∧
    semBalance (proposalWorkerSemTrace true false) = 1 := by
  decide

/-! ## Subscription calculation (`calculateSubscriptionInfo`, service.go lines 148-233)

Go maps are modelled as association lists with replace-on-insert; the
nested `slot => committee => Subscription` map is flattened to keys
`(slot, committeeIndex)` (creating an empty inner map, as the code does
just before the public-key lookup, adds no subscription and so is
invisible in the flattened view).  Collaborators are modelled as
functions: the Aggregator Oracle as a function returning
`Option (isAggregator, signature)` and the fallible account operations
`Index`/`PubKey` as `Option`-valued fields.  The mutex serialises all
map reads/writes of one worker, so the shared map evolves by a
sequential fold over the work items in processing order. -/

/-- Go map lookup on an association list. -/
def mapLookup {α β : Type} [DecidableEq α] (m : List (α × β)) (k : α) : Option β :=
  (m.find? (fun kv => kv.1 == k)).map Prod.snd

/-- The keys of an association list. -/
def mapKeys {α β : Type} (m : List (α × β)) : List α := m.map Prod.fst

/-- Go map assignment `m[k] = v` on an association list: replace the
value at an existing key, otherwise append the new pair. -/
def mapInsert {α β : Type} [DecidableEq α] (m : List (α × β)) (k : α) (v : β) :
    List (α × β) :=
  if k ∈ mapKeys m then m.map (fun kv => if kv.1 = k then (k, v) else kv)
  else m ++ [(k, v)]

/-- `accountmanager.ValidatingAccount` as the calculator uses it: the
fallible `Index(ctx)` and `PubKey(ctx)` results. -/
structure ValidatingAccount where
  indexResult : Option Nat
  pubKeyResult : Option Nat
deriving DecidableEq, Repr

/-- `attester.Duty` as the calculator uses it: `Slot()`,
`ValidatorIndices()`, `CommitteeIndices()` and `CommitteeSize(index)`. -/
structure Duty where
  slot : Nat
  validatorIndices : List Nat
  committeeIndices : List Nat
  committeeSize : Nat → Nat

/-- `beaconcommitteesubscriber.Subscription`, fields in the order of the
composite literal at service.go lines 218-224. -/
structure Subscription where
  validatorIndex : Nat
  validatorPubKey : Nat
  committeeSize : Nat
  signature : Nat
  aggregate : Bool
deriving DecidableEq, Repr

/-- The Aggregator Oracle
`IsAggregator(ctx, validatorIndex, committeeIndex, slot, committeeSize)`:
`none` models the error return. -/
abbrev Oracle := Nat → Nat → Nat → Nat → Option (Bool × Nat)

/-- The flattened `slot => committee => Subscription` map. -/
abbrev SubscriptionMap := List ((Nat × Nat) × Subscription)

/-- The account-map loop (service.go lines 159-167): accounts whose
`Index` lookup fails are skipped, the rest are keyed by index. -/
def buildAccountMap (accounts : List ValidatingAccount) : List (Nat × ValidatingAccount) :=
  accounts.foldl
    (fun accountMap account =>
      match account.indexResult with
      | none => accountMap
      | some index => mapInsert accountMap index account)
    []

/-- The part of a subscription worker after the read-lock short-circuit
check (service.go lines 194-225): oracle call, account lookup, public-key
lookup, then the write of the new Subscription; each failure exits
leaving the map unchanged. -/
def subscriptionWorkerUpdate (oracle : Oracle) (accountMap : List (Nat × ValidatingAccount))
    (duty : Duty) (i : Nat) (subscriptionInfo : SubscriptionMap) : SubscriptionMap :=
  let validatorIndex := duty.validatorIndices.getD i 0
  let committeeIndex := duty.committeeIndices.getD i 0
  match oracle validatorIndex committeeIndex duty.slot (duty.committeeSize committeeIndex) with
  | none => subscriptionInfo
  | some (isAggregator, signature) =>
    match mapLookup accountMap validatorIndex with
    | none => subscriptionInfo
    | some account =>
      match account.pubKeyResult with
      | none => subscriptionInfo
      | some pubKey =>
        mapInsert subscriptionInfo (duty.slot, committeeIndex)
          { validatorIndex := validatorIndex
            validatorPubKey := pubKey
            committeeSize := duty.committeeSize committeeIndex
            signature := signature
            aggregate := isAggregator }

/-- One subscription worker (service.go lines 180-226, the goroutine body
minus the semaphore bookkeeping): if an aggregator subscription already
exists for this `(slot, committeeIndex)` the worker exits at once,
otherwise it runs the update above. -/
def subscriptionWorker (oracle : Oracle) (accountMap : List (Nat × ValidatingAccount))
    (duty : Duty) (i : Nat) (subscriptionInfo : SubscriptionMap) : SubscriptionMap :=
  let committeeIndex := duty.committeeIndices.getD i 0
  match mapLookup subscriptionInfo (duty.slot, committeeIndex) with
  | some info =>
    if info.aggregate then subscriptionInfo
    else subscriptionWorkerUpdate oracle accountMap duty i subscriptionInfo
  | none => subscriptionWorkerUpdate oracle accountMap duty i subscriptionInfo

/-- The doubly nested goroutine spawn (service.go lines 174-229): one
work item per duty and per position in that duty's validator list. -/
def workItems (duties : List Duty) : List (Duty × Nat) :=
  duties.flatMap (fun duty => (List.range duty.validatorIndices.length).map (fun i => (duty, i)))

/-- The `(slot, committeeIndex)` key a work item writes to. -/
def workItemKey (item : Duty × Nat) : Nat × Nat :=
  (item.1.slot, item.1.committeeIndices.getD item.2 0)

/-- The `(slot, committee-index)` pairs touched by a duty set. -/
def dutyPairs (duties : List Duty) : List (Nat × Nat) :=
  (workItems duties).map workItemKey

/-- The Subscription Map `calculateSubscriptionInfo` builds: the workers'
updates folded over the work items in processing order, starting from the
empty map. -/
def subscriptionMapOf (oracle : Oracle) (accounts : List ValidatingAccount)
    (duties : List Duty) : SubscriptionMap :=
  (workItems duties).foldl
    (fun subscriptionInfo item => subscriptionWorker oracle (buildAccountMap accounts) item.1 item.2 subscriptionInfo)
    []

/-- `calculateSubscriptionInfo` (service.go lines 148-233): builds the
account map, runs all workers, and returns the map with a `nil` error —
the only `return` statement is `return subscriptionInfo, nil`.  (`epoch`
is received but not read by the function body.) -/
def calculateSubscriptionInfo (oracle : Oracle) (epoch : Nat)
    (accounts : List ValidatingAccount) (duties : List Duty) :
    Except String SubscriptionMap :=
  Except.ok (subscriptionMapOf oracle accounts duties)

/-! ### C3: behaviour when every account-index lookup fails -/

/-- A concrete oracle that always reports "aggregator". -/
def oracleAlwaysAggregator : Oracle := fun _ _ _ _ => some (true, 7)

/-- A concrete account whose `Index` lookup fails. -/
def accountNoIndex : ValidatingAccount := { indexResult := none, pubKeyResult := some 11 }

/-- A concrete single-validator duty. -/
def dutySingle : Duty :=
  { slot := 50, validatorIndices := [1], committeeIndices := [3], committeeSize := fun _ => 128 }

lemma foldl_accountMap_skip_all (accounts : List ValidatingAccount)
    (m : List (Nat × ValidatingAccount))
    (h : ∀ a ∈ accounts, a.indexResult = none) :
    accounts.foldl
      (fun accountMap account =>
        match account.indexResult with
        | none => accountMap
        | some index => mapInsert accountMap index account) m = m := by
  induction accounts generalizing m with
  | nil => rfl
  | cons a as ih =>
    rw [List.foldl_cons]
    have ha := h a (List.mem_cons_self a as)
    rw [ha]
    exact ih m (fun x hx => h x (List.mem_cons_of_mem a hx))

lemma buildAccountMap_all_fail (accounts : List ValidatingAccount)
    (h : ∀ a ∈ accounts, a.indexResult = none) : buildAccountMap accounts = [] :=
  foldl_accountMap_skip_all accounts [] h

lemma subscriptionWorkerUpdate_empty_accountMap (oracle : Oracle) (duty : Duty) (i : Nat)
    (m : SubscriptionMap) : subscriptionWorkerUpdate oracle [] duty i m = m := by
  unfold subscriptionWorkerUpdate
  dsimp only
  split
  · rfl
  · rfl

lemma subscriptionWorker_empty (oracle : Oracle) (duty : Duty) (i : Nat) :
    subscriptionWorker oracle [] duty i [] = [] := by
  simp [subscriptionWorker, mapLookup, subscriptionWorkerUpdate_empty_accountMap]

/-- C3 counterexample: with a single account whose index lookup fails
(hence every account-index lookup fails), the calculation returns the
normal empty Subscription Map with a `nil` error, not a
CalculationError — the function's only return is `subscriptionInfo, nil`. -/
theorem calculate_all_index_fail_counterexample :
    calculateSubscriptionInfo oracleAlwaysAggregator 10 [accountNoIndex] [dutySingle] =
      Except.ok [] := rfl

/-- C3 (amended): when the account-index lookup fails for every account
in the input set, the calculation returns an empty Subscription Map and
no error (it never returns a CalculationError). -/
theorem calculate_all_index_fail_ok_empty (oracle : Oracle) (epoch : Nat)
    (accounts : List ValidatingAccount) (duties : List Duty)
    (h : ∀ a ∈ accounts, a.indexResult = none) :
    calculateSubscriptionInfo oracle epoch accounts duties = Except.ok [] := by
  unfold calculateSubscriptionInfo subscriptionMapOf
  rw [buildAccountMap_all_fail accounts h]
  have hfold : ∀ items : List (Duty × Nat),
      items.foldl (fun subscriptionInfo item =>
        subscriptionWorker oracle [] item.1 item.2 subscriptionInfo) [] = [] := by
    intro items
    induction items with
    | nil => rfl
    | cons item items ih => rw [List.foldl_cons, subscriptionWorker_empty]; exact ih
  rw [hfold]

/-- Witness for C3's amended claim at a concrete input: two accounts,
both with failing index lookups. -/
theorem calculate_all_index_fail_ok_empty_witness :
    calculateSubscriptionInfo oracleAlwaysAggregator 10 [accountNoIndex, accountNoIndex]
      [dutySingle] = Except.ok [] :=
  calculate_all_index_fail_ok_empty oracleAlwaysAggregator 10 _ _ (by decide)

/-! ### C7: the two-validator shared-committee scenario -/

/-- Validator 1's account: index 1, public key 101. -/
def accountV1 : ValidatingAccount := { indexResult := some 1, pubKeyResult := some 101 }

/-- Validator 2's account: index 2, public key 102. -/
def accountV2 : ValidatingAccount := { indexResult := some 2, pubKeyResult := some 102 }

/-- The merged duty: validators 1 and 2 share committee-index 3 at
slot 50. -/
def dutyShared : Duty :=
  { slot := 50, validatorIndices := [1, 2], committeeIndices := [3, 3],
    committeeSize := fun _ => 128 }

/-- The oracle of the scenario: validator 1 is the aggregator, validator
2 is not. -/
def oracleV1Aggregator : Oracle := fun validatorIndex _ _ _ =>
  if validatorIndex = 1 then some (true, 1001) else some (false, 1002)

/-- The account map of the scenario. -/
def sharedAccountMap : List (Nat × ValidatingAccount) := buildAccountMap [accountV1, accountV2]

/-- The subscription the scenario must produce: validator 1's identity
with `Aggregate = true`. -/
def subscriptionV1 : Subscription :=
  { validatorIndex := 1, validatorPubKey := 101, committeeSize := 128,
    signature := 1001, aggregate := true }

/-- C7: in the shared-committee scenario the resulting map has exactly
one entry at (50, 3), with `Aggregate = true` and validator 1's identity,
whichever of the two validators' work items is processed first; and a
worker that observes an existing aggregator subscription for its key
returns the map unchanged for every oracle, i.e. without consulting the
oracle. -/
theorem scenario_single_aggregator_entry :
    subscriptionWorker oracleV1Aggregator sharedAccountMap dutyShared 1
        (subscriptionWorker oracleV1Aggregator sharedAccountMap dutyShared 0 []) =
      [((50, 3), subscriptionV1)] ∧
    subscriptionWorker oracleV1Aggregator sharedAccountMap dutyShared 0
        (subscriptionWorker oracleV1Aggregator sharedAccountMap dutyShared 1 []) =
      [((50, 3), subscriptionV1)] ∧
    ∀ oracle : Oracle,
      subscriptionWorker oracle sharedAccountMap dutyShared 1 [((50, 3), subscriptionV1)] =
        [((50, 3), subscriptionV1)] :=
  ⟨rfl, rfl, fun _ => rfl⟩

/-! ### C8: key uniqueness and the bound by distinct duty pairs -/

lemma mapKeys_mapInsert {α β : Type} [DecidableEq α] (m : List (α × β)) (k : α) (v : β) :
    mapKeys (mapInsert m k v) =
      if k ∈ mapKeys m then mapKeys m else mapKeys m ++ [k] := by
  unfold mapInsert
  by_cases h : k ∈ mapKeys m
  · simp only [h, if_true]
    unfold mapKeys
    rw [List.map_map]
    apply List.map_congr_left
    intro kv _
    by_cases hk : kv.1 = k
    · simp [hk]
    · simp [hk]
  · rw [if_neg h, if_neg h]
    unfold mapKeys
    simp

lemma nodup_mapKeys_mapInsert {α β : Type} [DecidableEq α] (m : List (α × β)) (k : α)
    (v : β) (h : (mapKeys m).Nodup) : (mapKeys (mapInsert m k v)).Nodup := by
  rw [mapKeys_mapInsert]
  by_cases hk : k ∈ mapKeys m
  · simpa [hk] using h
  · simp [hk, List.nodup_append, h]

lemma mem_mapKeys_mapInsert {α β : Type} [DecidableEq α] {m : List (α × β)} {k x : α}
    {v : β} (hx : x ∈ mapKeys (mapInsert m k v)) : x ∈ mapKeys m ∨ x = k := by
  rw [mapKeys_mapInsert] at hx
  by_cases hk : k ∈ mapKeys m
  · rw [if_pos hk] at hx
    exact Or.inl hx
  · rw [if_neg hk] at hx
    rcases List.mem_append.mp hx with h | h
    · exact Or.inl h
    · exact Or.inr (List.mem_singleton.mp h)

lemma subscriptionWorkerUpdate_eq_or_insert (oracle : Oracle)
    (accountMap : List (Nat × ValidatingAccount)) (duty : Duty) (i : Nat)
    (m : SubscriptionMap) :
    subscriptionWorkerUpdate oracle accountMap duty i m = m ∨
    ∃ v, subscriptionWorkerUpdate oracle accountMap duty i m =
      mapInsert m (workItemKey (duty, i)) v := by
  unfold subscriptionWorkerUpdate
  dsimp only
  split
  · exact Or.inl rfl
  · split
    · exact Or.inl rfl
    · split
      · exact Or.inl rfl
      · exact Or.inr ⟨_, rfl⟩

lemma subscriptionWorker_eq_or_insert (oracle : Oracle)
    (accountMap : List (Nat × ValidatingAccount)) (duty : Duty) (i : Nat)
    (m : SubscriptionMap) :
    subscriptionWorker oracle accountMap duty i m = m ∨
    ∃ v, subscriptionWorker oracle accountMap duty i m =
      mapInsert m (workItemKey (duty, i)) v := by
  unfold subscriptionWorker
  dsimp only
  split
  · split
    · exact Or.inl rfl
    · exact subscriptionWorkerUpdate_eq_or_insert oracle accountMap duty i m
  · exact subscriptionWorkerUpdate_eq_or_insert oracle accountMap duty i m

lemma subscriptionMap_fold_invariant (oracle : Oracle)
    (accountMap : List (Nat × ValidatingAccount)) (duties : List Duty) :
    ∀ (items : List (Duty × Nat)) (m : SubscriptionMap),
      (∀ item ∈ items, workItemKey item ∈ dutyPairs duties) →
      (mapKeys m).Nodup →
      (∀ x ∈ mapKeys m, x ∈ dutyPairs duties) →
      (mapKeys (items.foldl
        (fun mm item => subscriptionWorker oracle accountMap item.1 item.2 mm) m)).Nodup ∧
      (∀ x ∈ mapKeys (items.foldl
        (fun mm item => subscriptionWorker oracle accountMap item.1 item.2 mm) m),
        x ∈ dutyPairs duties) := by
  intro items
  induction items with
  | nil => exact fun m _ h1 h2 => ⟨h1, h2⟩
  | cons item items ih =>
    intro m hitems h1 h2
    rw [List.foldl_cons]
    apply ih
    · exact fun it hit => hitems it (List.mem_cons_of_mem item hit)
    · rcases subscriptionWorker_eq_or_insert oracle accountMap item.1 item.2 m with heq | ⟨v, heq⟩
      · rw [heq]; exact h1
      · rw [heq]; exact nodup_mapKeys_mapInsert m _ v h1
    · intro x hx
      rcases subscriptionWorker_eq_or_insert oracle accountMap item.1 item.2 m with heq | ⟨v, heq⟩
      · rw [heq] at hx; exact h2 x hx
      · rw [heq] at hx
        rcases mem_mapKeys_mapInsert hx with h | h
        · exact h2 x h
        · rw [h]; exact hitems item (List.mem_cons_self item items)

/-- C8: the calculation returns its Subscription Map with a `nil` error;
that map has pairwise distinct `(slot, committee-index)` keys (never two
Subscriptions for the same pair), and its size is at most the number of
distinct `(slot, committee-index)` pairs occurring in the duty set. -/
theorem subscriptionMap_unique_keys_and_bounded (oracle : Oracle) (epoch : Nat)
    (accounts : List ValidatingAccount) (duties : List Duty) :
    calculateSubscriptionInfo oracle epoch accounts duties =
      Except.ok (subscriptionMapOf oracle accounts duties) ∧
    (mapKeys (subscriptionMapOf oracle accounts duties)).Nodup ∧
    (subscriptionMapOf oracle accounts duties).length ≤ (dutyPairs duties).dedup.length := by
  have hinv := subscriptionMap_fold_invariant oracle (buildAccountMap accounts) duties
    (workItems duties) []
    (fun item hit => List.mem_map_of_mem workItemKey hit)
    List.nodup_nil
    (by intro x hx; simp [mapKeys] at hx)
  have hmap : subscriptionMapOf oracle accounts duties =
      (workItems duties).foldl
        (fun mm item => subscriptionWorker oracle (buildAccountMap accounts) item.1 item.2 mm)
        [] := rfl
  rw [← hmap] at hinv
  obtain ⟨hnodup, hsub⟩ := hinv
  refine ⟨rfl, hnodup, ?_⟩
  calc (subscriptionMapOf oracle accounts duties).length
      = (mapKeys (subscriptionMapOf oracle accounts duties)).length :=
        (List.length_map _ _).symm
    _ = (mapKeys (subscriptionMapOf oracle accounts duties)).toFinset.card :=
        (List.toFinset_card_of_nodup hnodup).symm
    _ ≤ (dutyPairs duties).toFinset.card :=
        Finset.card_le_card
          (fun x hx => List.mem_toFinset.mpr (hsub x (List.mem_toFinset.mp hx)))
    _ = (dutyPairs duties).dedup.length := List.card_toFinset _

/-! ### C10: write-lock balance of the subscription worker's exit paths

The inner goroutine of `calculateSubscriptionInfo` (service.go lines
180-226) takes the map's read lock and releases it (lines 187-189), and
takes the write lock at line 209; the only `Unlock` is at line 225,
*after* the public-key lookup — the `return` on public-key failure (line
216) leaves the goroutine without releasing the write lock. -/

/-- An operation on the map's read/write lock. -/
inductive LockOp where
  | rlock
  | runlock
  | lock
  | unlock
deriving DecidableEq, Repr

/-- Lock operations performed by one subscription worker along each exit
path, indexed by the branch taken: whether the semaphore acquire
succeeded, whether an aggregator subscription already existed, whether
the oracle call succeeded, whether the account was found, and whether the
public-key lookup succeeded. -/
def subscriptionWorkerLockTrace
    (acquireOk existsAggregator oracleOk accountFound pubKeyOk : Bool) : List LockOp :=
  if !acquireOk then []
  else
    [LockOp.rlock, LockOp.runlock] ++
      (if existsAggregator then []
       else if !oracleOk then []
       else if !accountFound then []
       else [LockOp.lock] ++ (if !pubKeyOk then [] else [LockOp.unlock]))

/-- Write-lock acquisitions minus releases along a trace. -/
def writeLockBalance (trace : List LockOp) : Int :=
  (trace.count LockOp.lock : Int) - (trace.count LockOp.unlock : Int)

/-- C10: the claim that every write-lock acquisition is matched by a
release on every exit path fails on the code: on the path where the
public-key lookup fails after the write lock was taken the worker
returns still holding the lock (balance 1), while the normal completion
path is balanced. -/
theorem subscriptionWorker_lock_leak_on_pubkey_failure :
    writeLockBalance (subscriptionWorkerLockTrace true false true true false) = 1 ∧
    writeLockBalance (subscriptionWorkerLockTrace true false true true true) = 0 := by
  decide

end Vouch
